import Mathlib

/-!
Verification of the instrumentation core of the `coronainit` CLI
(`src/index.js`).  The tool parses each source file with Babel, walks the
tree, inserts a `corona.warn` diagnostic call at the head of every catch
clause that lacks one, and inserts a default import of
`@music/corona-falcon-sdk` (bound to `corona`) once per modified file.

The Babel AST fragment relevant to the transform is embedded as a mutual
inductive family below; the visitor and the per-file driver `processFile`
are embedded as structurally recursive functions.  Note one point of
Babel semantics reflected here: a plain `return` inside the `CatchClause`
visitor skips only that handler's instrumentation — traversal still
descends into the handler's children, so catch clauses nested inside a
skipped handler are processed independently.
-/

namespace Coronainit

/-- The module specifier of the diagnostic SDK (`@music/corona-falcon-sdk`). -/
def sdkModule : String := "@music/corona-falcon-sdk"

/-- The recognized diagnostic method names, from
`['info', 'warn', 'error'].includes(callee.property.name)`. -/
def coronaMethods : List String := ["info", "warn", "error"]

/-- Catch-clause binding patterns: a simple identifier, or a destructuring
pattern (the transform never inspects the inside of a destructuring
pattern, so the two destructuring kinds carry no payload). -/
inductive Pat where
  | identifier (name : String)
  | objectPattern
  | arrayPattern
deriving DecidableEq, Repr

/-- Import specifiers of an `ImportDeclaration`. -/
inductive ImportSpecifier where
  | importDefaultSpecifier (localName : String)
  | importSpecifier (importedName : String) (localName : String)
  | importNamespaceSpecifier (localName : String)
deriving DecidableEq, Repr

mutual

/-- Babel expressions, restricted to the constructors the transform reads
or builds.  `memberExpression` carries the `computed` flag
(`corona.warn` vs `corona["warn"]`); `functionExpression` stands for any
expression carrying a statement body, so catch clauses nested inside
expressions are represented. -/
inductive Expr where
  | identifier (name : String) : Expr
  | stringLiteral (value : String) : Expr
  | memberExpression (object : Expr) (property : Expr) (computed : Bool) : Expr
  | callExpression (callee : Expr) (args : ExprList) : Expr
  | logicalExpression (op : String) (left : Expr) (right : Expr) : Expr
  | objectExpression (props : PropList) : Expr
  | functionExpression (body : StmtList) : Expr
deriving DecidableEq, Repr

/-- A list of expressions (call arguments). -/
inductive ExprList where
  | nil : ExprList
  | cons (head : Expr) (tail : ExprList) : ExprList
deriving DecidableEq, Repr

/-- Object-literal properties: key and value expressions. -/
inductive PropList where
  | nil : PropList
  | cons (key : Expr) (value : Expr) (tail : PropList) : PropList
deriving DecidableEq, Repr

/-- Babel statements, restricted to the constructors the transform reads
or builds, plus enough statement kinds with nested bodies to represent
nesting of handlers (blocks, function declarations, conditionals). -/
inductive Stmt where
  | expressionStatement (e : Expr) : Stmt
  | importDeclaration (specifiers : List ImportSpecifier) (source : String) : Stmt
  | tryStatement (block : StmtList) (handler : MaybeCatch) (finalizer : MaybeStmts) : Stmt
  | blockStatement (body : StmtList) : Stmt
  | functionDeclaration (name : String) (body : StmtList) : Stmt
  | ifStatement (test : Expr) (consequent : Stmt) (alternate : MaybeStmt) : Stmt
deriving DecidableEq, Repr

/-- An optional statement (`IfStatement.alternate`). -/
inductive MaybeStmt where
  | none : MaybeStmt
  | some (s : Stmt) : MaybeStmt
deriving DecidableEq, Repr

/-- A list of statements (program body, block bodies). -/
inductive StmtList where
  | nil : StmtList
  | cons (head : Stmt) (tail : StmtList) : StmtList
deriving DecidableEq, Repr

/-- A catch clause: optional binding (`param`) and block body. -/
inductive CatchClause where
  | mk (param : Option Pat) (body : StmtList) : CatchClause
deriving DecidableEq, Repr

/-- An optional catch clause (`TryStatement.handler`). -/
inductive MaybeCatch where
  | none : MaybeCatch
  | some (c : CatchClause) : MaybeCatch
deriving DecidableEq, Repr

/-- An optional finalizer block (`TryStatement.finalizer`). -/
inductive MaybeStmts where
  | none : MaybeStmts
  | some (l : StmtList) : MaybeStmts
deriving DecidableEq, Repr

end

/-- The binding of a catch clause. -/
def CatchClause.param : CatchClause → Option Pat
  | .mk p _ => p

/-- The body of a catch clause. -/
def CatchClause.body : CatchClause → StmtList
  | .mk _ b => b

/-- Does some statement of `l` satisfy `p`?  This is the shallow
embedding of the early-exit `for … break` loops of the source. -/
def StmtList.any (p : Stmt → Bool) : StmtList → Bool
  | .nil => false
  | .cons s t => p s || StmtList.any p t

/-- Conversion to a plain `List` for stating positional properties. -/
def StmtList.toList : StmtList → List Stmt
  | .nil => []
  | .cons s t => s :: StmtList.toList t

/-- One step of the detection loop (`index.js:47-61`): a bare expression
statement whose expression is a call whose callee is a member expression
with object an identifier named `corona` and property an identifier named
`info`, `warn` or `error`.  The source reads `callee.property.name`
without inspecting `callee.computed`, so the property node must be an
identifier but the access may be computed. -/
def isCoronaLogStmt : Stmt → Bool
  | .expressionStatement (.callExpression (.memberExpression (.identifier objName) prop _) _) =>
      objName == "corona" &&
        (match prop with
         | .identifier propName => coronaMethods.contains propName
         | _ => false)
  | _ => false

/-- The Diagnostic Call Marker (`hasCoronaLog` in the source): scans only
the top-level statements of a handler body. -/
def hasCoronaLog (body : StmtList) : Bool :=
  StmtList.any isCoronaLogStmt body

/-- The synthesized expression
`corona.warn("SomethingWrong", { error: (e || {}).stack || e }, "")`
built at `index.js:63-84` for bound name `errorName`.  `t.memberExpression`
defaults `computed` to `false`. -/
def warnCallExpr (errorName : String) : Expr :=
  .callExpression
    (.memberExpression (.identifier "corona") (.identifier "warn") false)
    (.cons (.stringLiteral "SomethingWrong")
      (.cons (.objectExpression
        (.cons (.identifier "error")
          (.logicalExpression "||"
            (.memberExpression
              (.logicalExpression "||" (.identifier errorName) (.objectExpression .nil))
              (.identifier "stack") false)
            (.identifier errorName))
          .nil))
        (.cons (.stringLiteral "") .nil)))

/-- The synthesized statement inserted at the head of a handler body. -/
def warnStmt (errorName : String) : Stmt :=
  .expressionStatement (warnCallExpr errorName)

mutual

/-- Traversal of an expression: visits every catch clause nested inside
it (Babel's `traverse` descends into all children) and returns the
rewritten expression together with the `modified` contribution. -/
def instrumentExpr : Expr → Expr × Bool
  | .identifier n => (.identifier n, false)
  | .stringLiteral v => (.stringLiteral v, false)
  | .memberExpression o p c =>
      (.memberExpression (instrumentExpr o).1 (instrumentExpr p).1 c,
       (instrumentExpr o).2 || (instrumentExpr p).2)
  | .callExpression f a =>
      (.callExpression (instrumentExpr f).1 (instrumentExprList a).1,
       (instrumentExpr f).2 || (instrumentExprList a).2)
  | .logicalExpression op l r =>
      (.logicalExpression op (instrumentExpr l).1 (instrumentExpr r).1,
       (instrumentExpr l).2 || (instrumentExpr r).2)
  | .objectExpression ps =>
      (.objectExpression (instrumentPropList ps).1, (instrumentPropList ps).2)
  | .functionExpression b =>
      (.functionExpression (instrumentStmtList b).1, (instrumentStmtList b).2)

/-- Traversal of an argument list. -/
def instrumentExprList : ExprList → ExprList × Bool
  | .nil => (.nil, false)
  | .cons e t =>
      (.cons (instrumentExpr e).1 (instrumentExprList t).1,
       (instrumentExpr e).2 || (instrumentExprList t).2)

/-- Traversal of object-literal properties. -/
def instrumentPropList : PropList → PropList × Bool
  | .nil => (.nil, false)
  | .cons k v t =>
      (.cons (instrumentExpr k).1 (instrumentExpr v).1 (instrumentPropList t).1,
       (instrumentExpr k).2 || ((instrumentExpr v).2 || (instrumentPropList t).2))

/-- Traversal of a statement. -/
def instrumentStmt : Stmt → Stmt × Bool
  | .expressionStatement e =>
      (.expressionStatement (instrumentExpr e).1, (instrumentExpr e).2)
  | .importDeclaration specs src => (.importDeclaration specs src, false)
  | .tryStatement b h f =>
      (.tryStatement (instrumentStmtList b).1 (instrumentMaybeCatch h).1
         (instrumentMaybeStmts f).1,
       (instrumentStmtList b).2 || ((instrumentMaybeCatch h).2 || (instrumentMaybeStmts f).2))
  | .blockStatement b =>
      (.blockStatement (instrumentStmtList b).1, (instrumentStmtList b).2)
  | .functionDeclaration n b =>
      (.functionDeclaration n (instrumentStmtList b).1, (instrumentStmtList b).2)
  | .ifStatement t c a =>
      (.ifStatement (instrumentExpr t).1 (instrumentStmt c).1 (instrumentMaybeStmt a).1,
       (instrumentExpr t).2 || ((instrumentStmt c).2 || (instrumentMaybeStmt a).2))

/-- Traversal of an optional statement. -/
def instrumentMaybeStmt : MaybeStmt → MaybeStmt × Bool
  | .none => (.none, false)
  | .some s => (.some (instrumentStmt s).1, (instrumentStmt s).2)

/-- Traversal of a statement list. -/
def instrumentStmtList : StmtList → StmtList × Bool
  | .nil => (.nil, false)
  | .cons s t =>
      (.cons (instrumentStmt s).1 (instrumentStmtList t).1,
       (instrumentStmt s).2 || (instrumentStmtList t).2)

/-- The `CatchClause` visitor of `src/index.js:39-89`.  A handler with no
param or a non-identifier param is skipped (`return`), which in Babel
still lets traversal descend into the handler body.  For an identifier
param, the Diagnostic Call Marker is computed on the body as found at
visit time (pre-order: before children are rewritten); if absent, the
`corona.warn` statement is unshifted onto the body and the file is marked
modified. -/
def instrumentCatch : CatchClause → CatchClause × Bool
  | .mk Option.none body =>
      (.mk Option.none (instrumentStmtList body).1, (instrumentStmtList body).2)
  | .mk (Option.some (Pat.identifier errorName)) body =>
      if hasCoronaLog body then
        (.mk (Option.some (Pat.identifier errorName)) (instrumentStmtList body).1,
         (instrumentStmtList body).2)
      else
        (.mk (Option.some (Pat.identifier errorName))
           (.cons (warnStmt errorName) (instrumentStmtList body).1), true)
  | .mk (Option.some Pat.objectPattern) body =>
      (.mk (Option.some Pat.objectPattern) (instrumentStmtList body).1,
       (instrumentStmtList body).2)
  | .mk (Option.some Pat.arrayPattern) body =>
      (.mk (Option.some Pat.arrayPattern) (instrumentStmtList body).1,
       (instrumentStmtList body).2)

/-- Traversal of an optional catch clause. -/
def instrumentMaybeCatch : MaybeCatch → MaybeCatch × Bool
  | .none => (.none, false)
  | .some c => (.some (instrumentCatch c).1, (instrumentCatch c).2)

/-- Traversal of an optional finalizer. -/
def instrumentMaybeStmts : MaybeStmts → MaybeStmts × Bool
  | .none => (.none, false)
  | .some l => (.some (instrumentStmtList l).1, (instrumentStmtList l).2)

end

/-- Is a top-level statement an `ImportDeclaration`? (`index.js:29`). -/
def isImportDecl : Stmt → Bool
  | .importDeclaration _ _ => true
  | _ => false

/-- Is a top-level statement an import of the diagnostic SDK?
(`node.source.value === '@music/corona-falcon-sdk'`, `index.js:31`). -/
def isSdkImport : Stmt → Bool
  | .importDeclaration _ src => src == sdkModule
  | _ => false

/-- The source's `hasCoronaImport` flag: some top-level statement
imports the SDK, whatever its specifiers. -/
def hasCoronaImport (prog : StmtList) : Bool :=
  StmtList.any isSdkImport prog

/-- The index of the last top-level `ImportDeclaration`, embedding the
`lastImportIndex` variable of `index.js:25-35` (`-1` becomes `none`). -/
def lastImportIndex : StmtList → Option Nat
  | .nil => Option.none
  | .cons s t =>
      match lastImportIndex t with
      | Option.some i => Option.some (i + 1)
      | Option.none => if isImportDecl s then Option.some 0 else Option.none

/-- Insertion of `x` at index `n`, mirroring `splice(n, 0, x)`:
appends at the end when `n` exceeds the length (JavaScript splice clamps
the index). -/
def StmtList.insertIdx : Nat → Stmt → StmtList → StmtList
  | 0, x, l => .cons x l
  | _ + 1, x, .nil => .cons x .nil
  | n + 1, x, .cons s t => .cons s (StmtList.insertIdx n x t)

/-- The synthesized `import corona from '@music/corona-falcon-sdk'`
(`index.js:94-97`). -/
def importStatement : Stmt :=
  .importDeclaration [ImportSpecifier.importDefaultSpecifier "corona"] sdkModule

/-- The per-file pipeline of `processFile` after a successful parse
(`index.js:23-106`): record import facts on the original body, traverse
all catch clauses, then — if modified and no SDK import was present —
splice the synthesized import after the last original import, or unshift
it when there were no imports. -/
def processProgram (prog : StmtList) : StmtList × Bool :=
  (if (instrumentStmtList prog).2 && !hasCoronaImport prog then
     match lastImportIndex prog with
     | Option.some i => StmtList.insertIdx (i + 1) importStatement (instrumentStmtList prog).1
     | Option.none => .cons importStatement (instrumentStmtList prog).1
   else (instrumentStmtList prog).1,
   (instrumentStmtList prog).2)

/-- Outcome of `processFile` for one file: the catch-all `catch` logs and
skips (`errorLogged`), an unmodified file is not written back
(`unchanged`), a modified file is written (`written`). -/
inductive FileResult where
  | errorLogged : FileResult
  | unchanged : FileResult
  | written (out : StmtList) : FileResult
deriving DecidableEq, Repr

/-- The driver `processFile` (`index.js:15-117`) with the external
Babel parser abstracted as its outcome: either a parse failure (it throws, e.g. a
`SyntaxError`, carrying a message) or the parsed program.  A failure is
caught by the per-file `try … catch`, logged, and the file is left
unwritten. -/
def processFile (parsed : Except String StmtList) : FileResult :=
  match parsed with
  | .error _ => .errorLogged
  | .ok prog =>
      if (processProgram prog).2 then .written (processProgram prog).1 else .unchanged

/-- The batch loop `files.forEach(processFile)` (`index.js:176`): each
file is processed independently; `processFile` never throws, so the batch never aborts. -/
def processBatch (files : List (Except String StmtList)) : List FileResult :=
  files.map processFile

theorem isCoronaLogStmt_instrument (s : Stmt) :
    isCoronaLogStmt (instrumentStmt s).1 = isCoronaLogStmt s := by
  cases s with
  | expressionStatement e =>
      cases e with
      | callExpression callee args =>
          cases callee with
          | memberExpression o p c =>
              cases o <;> cases p <;>
                simp [instrumentStmt, instrumentExpr, isCoronaLogStmt]
          | _ => simp [instrumentStmt, instrumentExpr, isCoronaLogStmt]
      | _ => simp [instrumentStmt, instrumentExpr, isCoronaLogStmt]
  | _ => simp [instrumentStmt, isCoronaLogStmt]

theorem hasCoronaLog_instrument : (l : StmtList) →
    hasCoronaLog (instrumentStmtList l).1 = hasCoronaLog l
  | .nil => rfl
  | .cons s t => by
      have ih := hasCoronaLog_instrument t
      simp [hasCoronaLog, instrumentStmtList, StmtList.any] at ih ⊢
      rw [isCoronaLogStmt_instrument, ih]

mutual

theorem instrumentExpr_fix : (e : Expr) →
    instrumentExpr (instrumentExpr e).1 = ((instrumentExpr e).1, false)
  | .identifier _ => rfl
  | .stringLiteral _ => rfl
  | .memberExpression o p _ => by
      simp [instrumentExpr, instrumentExpr_fix o, instrumentExpr_fix p]
  | .callExpression f a => by
      simp [instrumentExpr, instrumentExpr_fix f, instrumentExprList_fix a]
  | .logicalExpression _ l r => by
      simp [instrumentExpr, instrumentExpr_fix l, instrumentExpr_fix r]
  | .objectExpression ps => by
      simp [instrumentExpr, instrumentPropList_fix ps]
  | .functionExpression b => by
      simp [instrumentExpr, instrumentStmtList_fix b]

theorem instrumentExprList_fix : (a : ExprList) →
    instrumentExprList (instrumentExprList a).1 = ((instrumentExprList a).1, false)
  | .nil => rfl
  | .cons e t => by
      simp [instrumentExprList, instrumentExpr_fix e, instrumentExprList_fix t]

theorem instrumentPropList_fix : (ps : PropList) →
    instrumentPropList (instrumentPropList ps).1 = ((instrumentPropList ps).1, false)
  | .nil => rfl
  | .cons k v t => by
      simp [instrumentPropList, instrumentExpr_fix k, instrumentExpr_fix v,
        instrumentPropList_fix t]

theorem instrumentStmt_fix : (s : Stmt) →
    instrumentStmt (instrumentStmt s).1 = ((instrumentStmt s).1, false)
  | .expressionStatement e => by
      simp [instrumentStmt, instrumentExpr_fix e]
  | .importDeclaration _ _ => rfl
  | .tryStatement b h f => by
      simp [instrumentStmt, instrumentStmtList_fix b, instrumentMaybeCatch_fix h,
        instrumentMaybeStmts_fix f]
  | .blockStatement b => by
      simp [instrumentStmt, instrumentStmtList_fix b]
  | .functionDeclaration _ b => by
      simp [instrumentStmt, instrumentStmtList_fix b]
  | .ifStatement t c a => by
      simp [instrumentStmt, instrumentExpr_fix t, instrumentStmt_fix c,
        instrumentMaybeStmt_fix a]

theorem instrumentMaybeStmt_fix : (a : MaybeStmt) →
    instrumentMaybeStmt (instrumentMaybeStmt a).1 = ((instrumentMaybeStmt a).1, false)
  | .none => rfl
  | .some s => by
      simp [instrumentMaybeStmt, instrumentStmt_fix s]

theorem instrumentStmtList_fix : (l : StmtList) →
    instrumentStmtList (instrumentStmtList l).1 = ((instrumentStmtList l).1, false)
  | .nil => rfl
  | .cons s t => by
      simp [instrumentStmtList, instrumentStmt_fix s, instrumentStmtList_fix t]

theorem instrumentCatch_fix : (c : CatchClause) →
    instrumentCatch (instrumentCatch c).1 = ((instrumentCatch c).1, false)
  | .mk Option.none body => by
      simp [instrumentCatch, instrumentStmtList_fix body]
  | .mk (Option.some (Pat.identifier e)) body => by
      by_cases hl : hasCoronaLog body
      · have h2 : hasCoronaLog (instrumentStmtList body).1 = true := by
          rw [hasCoronaLog_instrument]; exact hl
        simp [instrumentCatch, hl, h2, instrumentStmtList_fix body]
      · have hw : instrumentStmt (warnStmt e) = (warnStmt e, false) := rfl
        have hcl : isCoronaLogStmt (warnStmt e) = true := rfl
        have h3 : hasCoronaLog (.cons (warnStmt e) (instrumentStmtList body).1) = true := by
          simp [hasCoronaLog, StmtList.any, hcl]
        simp [instrumentCatch, hl, h3, instrumentStmtList, hw, instrumentStmtList_fix body]
  | .mk (Option.some Pat.objectPattern) body => by
      simp [instrumentCatch, instrumentStmtList_fix body]
  | .mk (Option.some Pat.arrayPattern) body => by
      simp [instrumentCatch, instrumentStmtList_fix body]

theorem instrumentMaybeCatch_fix : (h : MaybeCatch) →
    instrumentMaybeCatch (instrumentMaybeCatch h).1 = ((instrumentMaybeCatch h).1, false)
  | .none => rfl
  | .some c => by
      simp [instrumentMaybeCatch, instrumentCatch_fix c]

theorem instrumentMaybeStmts_fix : (f : MaybeStmts) →
    instrumentMaybeStmts (instrumentMaybeStmts f).1 = ((instrumentMaybeStmts f).1, false)
  | .none => rfl
  | .some l => by
      simp [instrumentMaybeStmts, instrumentStmtList_fix l]

end

theorem instrumentStmt_importStatement :
    instrumentStmt importStatement = (importStatement, false) := rfl

theorem instrumentStmtList_insertIdx_fix : (n : Nat) → (l : StmtList) →
    instrumentStmtList l = (l, false) →
    instrumentStmtList (StmtList.insertIdx n importStatement l) =
      (StmtList.insertIdx n importStatement l, false)
  | 0, l, h => by
      simp [StmtList.insertIdx, instrumentStmtList, instrumentStmt_importStatement, h]
  | _ + 1, .nil, _ => by
      simp [StmtList.insertIdx, instrumentStmtList, instrumentStmt_importStatement]
  | n + 1, .cons s t, h => by
      simp [instrumentStmtList] at h
      obtain ⟨⟨hs1, ht1⟩, hs2, ht2⟩ := h
      have hp : instrumentStmtList t = (t, false) := by
        have he := Prod.mk.eta (p := instrumentStmtList t)
        rw [ht1, ht2] at he
        exact he.symm
      have ih := instrumentStmtList_insertIdx_fix n t hp
      simp [StmtList.insertIdx, instrumentStmtList, hs1, hs2, ih]

/-- C1: running the transform a second time on the output of a first run
changes nothing: the tree is returned unchanged, the modified flag stays
`false` (so no further insertion of diagnostic calls happens, no
second import is added, and the file is not rewritten). -/
theorem processProgram_idempotent (prog out : StmtList) (m : Bool)
    (h : processProgram prog = (out, m)) :
    processProgram out = (out, false) := by
  have hout : instrumentStmtList out = (out, false) := by
    have h1 : out = (processProgram prog).1 := by rw [h]
    rw [h1]
    unfold processProgram
    by_cases hc : (instrumentStmtList prog).2 && !hasCoronaImport prog
    · simp only [hc, if_true]
      cases hli : lastImportIndex prog with
      | none =>
          simp [instrumentStmtList, instrumentStmt_importStatement,
            instrumentStmtList_fix prog]
      | some i => exact instrumentStmtList_insertIdx_fix (i + 1) _ (instrumentStmtList_fix prog)
    · simp only [hc, if_false, Bool.false_eq_true]
      exact instrumentStmtList_fix prog
  simp [processProgram, hout]

def tryCatchE : Stmt :=
  .tryStatement .nil (MaybeCatch.some (.mk (Option.some (Pat.identifier "e")) .nil))
    MaybeStmts.none

def exProg : StmtList := .cons tryCatchE .nil

def exOut : StmtList :=
  .cons importStatement
    (.cons (.tryStatement .nil
        (MaybeCatch.some (.mk (Option.some (Pat.identifier "e")) (.cons (warnStmt "e") .nil)))
        MaybeStmts.none) .nil)

theorem processProgram_idempotent_witness : processProgram exOut = (exOut, false) :=
  processProgram_idempotent exProg exOut true rfl

/-- C2: a handler bound to a simple identifier `e` whose body has no
Diagnostic Call Marker gets exactly one new statement unshifted onto its
body — the call `corona.warn("SomethingWrong", { error: (e || {}).stack || e }, "")`
— and the modified flag for this handler is `true`.  The remaining body
statements follow in order (each processed recursively for handlers
nested inside it). -/
theorem instrumentCatch_inserts_warn (e : String) (body : StmtList)
    (h : hasCoronaLog body = false) :
    instrumentCatch (.mk (Option.some (Pat.identifier e)) body) =
      (.mk (Option.some (Pat.identifier e))
         (.cons (warnStmt e) (instrumentStmtList body).1), true) := by
  simp [instrumentCatch, h]

theorem instrumentCatch_inserts_warn_witness :
    hasCoronaLog .nil = false ∧
    instrumentCatch (.mk (Option.some (Pat.identifier "e")) .nil) =
      (.mk (Option.some (Pat.identifier "e")) (.cons (warnStmt "e") .nil), true) :=
  ⟨rfl, instrumentCatch_inserts_warn "e" .nil rfl⟩

/-- C3 counterexample: in `src/index.js` a handler with no bound name is
not given the fallback identifier `error` — the visitor returns before
instrumenting, so the handler keeps `param = none` and contributes
`false` to the modified flag. -/
theorem noParam_not_synthesized :
    instrumentCatch (.mk Option.none .nil) = (.mk Option.none .nil, false) ∧
    (instrumentCatch (.mk Option.none .nil)).1.param ≠ Option.some (Pat.identifier "error") :=
  ⟨rfl, by decide⟩

/-- C3 amended: a handler with no bound name is skipped entirely by the
transform of `src/index.js`: its binding stays absent and no diagnostic
call is inserted into its body; handlers nested inside its body are still
processed independently and alone determine the modified contribution. -/
theorem instrumentCatch_noParam_skips (body : StmtList) :
    instrumentCatch (.mk Option.none body) =
      (.mk Option.none (instrumentStmtList body).1, (instrumentStmtList body).2) := by
  simp [instrumentCatch]

def nestedTryCatch : CatchClause :=
  .mk (Option.some Pat.objectPattern) (.cons tryCatchE .nil)

/-- C7 counterexample: a destructuring-bound handler whose body contains a
nested instrumentable handler does not come out byte-identical — the
nested handler is instrumented (Babel's visitor `return` does not skip
the subtree) — and the file's modified flag becomes true. -/
theorem destructuring_subtree_changes :
    (instrumentCatch nestedTryCatch).2 = true ∧
    (instrumentCatch nestedTryCatch).1 ≠ nestedTryCatch :=
  ⟨rfl, by decide⟩

/-- C7 amended: a handler whose bound name is not a simple identifier is
itself skipped: its binding is unchanged and no statement is inserted
into its body, and it contributes nothing of its own to the modified
flag; handlers nested inside its body are still processed independently
(so the subtree may change and the flag may be set by them). -/
theorem instrumentCatch_nonIdentifier_skips (p : Pat) (body : StmtList)
    (h : ∀ n, p ≠ Pat.identifier n) :
    instrumentCatch (.mk (Option.some p) body) =
      (.mk (Option.some p) (instrumentStmtList body).1, (instrumentStmtList body).2) := by
  cases p with
  | identifier n => exact absurd rfl (h n)
  | objectPattern => simp [instrumentCatch]
  | arrayPattern => simp [instrumentCatch]

theorem instrumentCatch_nonIdentifier_skips_witness :
    instrumentCatch (.mk (Option.some Pat.objectPattern) .nil) =
      (.mk (Option.some Pat.objectPattern) .nil, false) :=
  instrumentCatch_nonIdentifier_skips Pat.objectPattern .nil
    (fun _ h => Pat.noConfusion h)

def computedWarnBody : StmtList :=
  .cons (.expressionStatement (.callExpression
    (.memberExpression (.identifier "corona") (.identifier "warn") true) .nil)) .nil

/-- C9 counterexample: a handler whose only diagnostic call is the
computed access `corona[warn](...)` — property node an identifier named
`warn`, `computed = true` — IS recognized by the detection (the source
never inspects `callee.computed`), so the marker is true and no
additional `corona.warn` is inserted, contrary to the claim that every
computed-access call is unrecognized. -/
theorem computed_identifier_recognized :
    hasCoronaLog computedWarnBody = true ∧
    instrumentCatch (.mk (Option.some (Pat.identifier "e")) computedWarnBody) =
      (.mk (Option.some (Pat.identifier "e")) computedWarnBody, false) := ⟨rfl, rfl⟩

/-- C9 amended: detection keys on the property NODE being an identifier
named `info`/`warn`/`error`, not on the access being non-computed: a
bracket access with a string-literal property, `corona["warn"](...)`, has
no `.name` and is not recognized, so the transform inserts an additional
`corona.warn` statement ahead of it; but a computed access whose property
is an identifier (`corona[warn](...)`) is recognized. -/
theorem computed_string_inserts (e m : String) :
    hasCoronaLog (.cons (.expressionStatement (.callExpression
        (.memberExpression (.identifier "corona") (.stringLiteral m) true) .nil)) .nil) = false ∧
    instrumentCatch (.mk (Option.some (Pat.identifier e))
        (.cons (.expressionStatement (.callExpression
          (.memberExpression (.identifier "corona") (.stringLiteral m) true) .nil)) .nil)) =
      (.mk (Option.some (Pat.identifier e))
        (.cons (warnStmt e)
          (.cons (.expressionStatement (.callExpression
            (.memberExpression (.identifier "corona") (.stringLiteral m) true) .nil)) .nil)),
       true) := by
  have h1 : hasCoronaLog (.cons (.expressionStatement (.callExpression
      (.memberExpression (.identifier "corona") (.stringLiteral m) true) .nil)) .nil) = false := rfl
  refine ⟨h1, ?_⟩
  simp [instrumentCatch, h1, instrumentStmtList, instrumentStmt, instrumentExpr,
    instrumentExprList]

/-- The Diagnostic Call Marker shape, stated as a proposition independent
of the executable detection: a bare expression statement calling
`corona.<m>(…)` for `m` one of `info`, `warn`, `error`, with any value of
the `computed` flag. -/
def IsDiagStmt (s : Stmt) : Prop :=
  ∃ methodName computed args,
    s = .expressionStatement (.callExpression
      (.memberExpression (.identifier "corona") (.identifier methodName) computed) args) ∧
    (methodName = "info" ∨ methodName = "warn" ∨ methodName = "error")

theorem isCoronaLogStmt_iff (s : Stmt) :
    isCoronaLogStmt s = true ↔ IsDiagStmt s := by
  cases s with
  | expressionStatement e =>
      cases e with
      | callExpression callee args =>
          cases callee with
          | memberExpression o p c =>
              cases o <;> cases p <;>
                (simp [isCoronaLogStmt, IsDiagStmt, coronaMethods]; try aesop)
          | _ => simp [isCoronaLogStmt, IsDiagStmt]
      | _ => simp [isCoronaLogStmt, IsDiagStmt]
  | _ => simp [isCoronaLogStmt, IsDiagStmt]

theorem hasCoronaLog_iff : (body : StmtList) →
    (hasCoronaLog body = true ↔ ∃ s ∈ body.toList, IsDiagStmt s)
  | .nil => by simp [hasCoronaLog, StmtList.any, StmtList.toList]
  | .cons s t => by
      have ih := hasCoronaLog_iff t
      simp [hasCoronaLog, StmtList.any, StmtList.toList] at ih ⊢
      rw [isCoronaLogStmt_iff, ih]

/-- C4 amended: the marker computed by the transform is true iff some
top-level statement of the handler body is a bare call on a member access
on the identifier `corona` whose property node is an identifier named
`info`, `warn` or `error` — regardless of the `computed` flag, which the
source never inspects (nested statements are not scanned); and every
handler whose marker is true receives no insertion and keeps its binding
(handlers nested inside its body are still processed independently). -/
theorem marker_iff_and_skip (body : StmtList) (param : Option Pat) :
    (hasCoronaLog body = true ↔ ∃ s ∈ body.toList, IsDiagStmt s) ∧
    (hasCoronaLog body = true →
      instrumentCatch (.mk param body) =
        (.mk param (instrumentStmtList body).1, (instrumentStmtList body).2)) := by
  refine ⟨hasCoronaLog_iff body, fun h => ?_⟩
  cases param with
  | none => simp [instrumentCatch]
  | some p =>
      cases p with
      | identifier n => simp [instrumentCatch, h]
      | objectPattern => simp [instrumentCatch]
      | arrayPattern => simp [instrumentCatch]

def dotWarnBody : StmtList :=
  .cons (.expressionStatement (.callExpression
    (.memberExpression (.identifier "corona") (.identifier "warn") false) .nil)) .nil

theorem marker_iff_and_skip_witness :
    (∃ s ∈ dotWarnBody.toList, IsDiagStmt s) ∧
    instrumentCatch (.mk Option.none dotWarnBody) = (.mk Option.none dotWarnBody, false) :=
  ⟨(marker_iff_and_skip dotWarnBody Option.none).1.mp rfl,
   (marker_iff_and_skip dotWarnBody Option.none).2 rfl⟩

/-- Modelled from the claim's wording (not from the source): a marker
that additionally demands a NON-computed member access, i.e. requires
`computed = false`. -/
def isSpecDiagStmt : Stmt → Bool
  | .expressionStatement (.callExpression
      (.memberExpression (.identifier objName) (.identifier propName) computed) _) =>
      objName == "corona" && !computed && coronaMethods.contains propName
  | _ => false

/-- The claim's marker characterization over a handler body. -/
def specMarker (body : StmtList) : Bool :=
  StmtList.any isSpecDiagStmt body

/-- C4 counterexample: for the body `corona[warn](…)` — computed access
with an identifier property — the transform's marker is TRUE although the
claim's non-computed characterization is false, and accordingly the
handler receives no insertion. -/
theorem marker_noncomputed_counterexample :
    hasCoronaLog computedWarnBody = true ∧
    specMarker computedWarnBody = false ∧
    (instrumentCatch (.mk (Option.some (Pat.identifier "e")) computedWarnBody)).2 = false :=
  ⟨rfl, rfl, rfl⟩

/-- Is a statement an import of the SDK that binds the default export to
the local name `corona`?  (Used to state the claims about the synthesized
import.) -/
def bindsCoronaDefault : Stmt → Bool
  | .importDeclaration specs src =>
      src == sdkModule && specs.contains (ImportSpecifier.importDefaultSpecifier "corona")
  | _ => false

/-- The number of top-level imports of the SDK in a program. -/
def countSdkImports : StmtList → Nat
  | .nil => 0
  | .cons s t => (if isSdkImport s then 1 else 0) + countSdkImports t

theorem isSdkImport_instrument (s : Stmt) :
    isSdkImport (instrumentStmt s).1 = isSdkImport s := by
  cases s <;> simp [instrumentStmt, isSdkImport]

theorem countSdkImports_instrument : (l : StmtList) →
    countSdkImports (instrumentStmtList l).1 = countSdkImports l
  | .nil => rfl
  | .cons s t => by
      simp [countSdkImports, instrumentStmtList, isSdkImport_instrument,
        countSdkImports_instrument t]

theorem hasCoronaImport_false_iff : (l : StmtList) →
    (hasCoronaImport l = false ↔ countSdkImports l = 0)
  | .nil => by simp [hasCoronaImport, StmtList.any, countSdkImports]
  | .cons s t => by
      have ih := hasCoronaImport_false_iff t
      simp [hasCoronaImport, StmtList.any, countSdkImports] at ih ⊢
      cases hs : isSdkImport s <;> simp [hs, ih]

theorem isSdkImport_importStatement : isSdkImport importStatement = true := rfl

theorem countSdkImports_insertIdx : (n : Nat) → (l : StmtList) →
    countSdkImports (StmtList.insertIdx n importStatement l) = countSdkImports l + 1
  | 0, l => by simp [StmtList.insertIdx, countSdkImports, isSdkImport_importStatement]; omega
  | _ + 1, .nil => by
      simp [StmtList.insertIdx, countSdkImports, isSdkImport_importStatement]
  | n + 1, .cons s t => by
      simp [StmtList.insertIdx, countSdkImports, countSdkImports_insertIdx n t]; omega

theorem any_insertIdx (p : Stmt → Bool) : (n : Nat) → (x : Stmt) → (l : StmtList) →
    StmtList.any p (StmtList.insertIdx n x l) = (p x || StmtList.any p l)
  | 0, x, l => by simp [StmtList.insertIdx, StmtList.any]
  | _ + 1, x, .nil => by simp [StmtList.insertIdx, StmtList.any]
  | n + 1, x, .cons s t => by
      simp [StmtList.insertIdx, StmtList.any, any_insertIdx p n x t]
      cases p s <;> cases p x <;> simp

theorem bindsCoronaDefault_importStatement :
    bindsCoronaDefault importStatement = true := rfl

/-- C5 amended: after processing a file in which at least one handler was
instrumented, the number of SDK imports is 1 when the file had none (the
synthesized one, a default import bound to `corona`) and is unchanged
otherwise: no duplicate import is introduced however many handlers were
instrumented, and a pre-existing import — under any binding name —
suppresses the insertion. -/
theorem sdkImport_unique (prog out : StmtList)
    (h : processProgram prog = (out, true)) :
    countSdkImports out = (if countSdkImports prog = 0 then 1 else countSdkImports prog) ∧
    (countSdkImports prog = 0 → StmtList.any bindsCoronaDefault out = true) := by
  have hm : (instrumentStmtList prog).2 = true := by
    have h2 := congrArg Prod.snd h
    simpa [processProgram] using h2
  have hout : out = (processProgram prog).1 := by rw [h]
  by_cases hc : hasCoronaImport prog
  · have hcount : countSdkImports prog ≠ 0 := by
      intro h0
      rw [← (hasCoronaImport_false_iff prog)] at h0
      rw [hc] at h0
      cases h0
    rw [hout]
    simp only [processProgram, hm, hc]
    simp [countSdkImports_instrument prog, hcount]
  · have hzero : countSdkImports prog = 0 := (hasCoronaImport_false_iff prog).mp
      (by simpa using hc)
    rw [hout]
    simp only [processProgram, hm, hc]
    cases hli : lastImportIndex prog with
    | none =>
        simp [countSdkImports, isSdkImport_importStatement, StmtList.any,
          countSdkImports_instrument prog, hzero, bindsCoronaDefault_importStatement]
    | some i =>
        simp [countSdkImports_insertIdx, any_insertIdx,
          countSdkImports_instrument prog, hzero, bindsCoronaDefault_importStatement]

theorem sdkImport_unique_witness :
    countSdkImports exOut = 1 ∧ StmtList.any bindsCoronaDefault exOut = true :=
  ⟨by simpa using (sdkImport_unique exProg exOut rfl).1,
   (sdkImport_unique exProg exOut rfl).2 rfl⟩

def fooImport : Stmt :=
  .importDeclaration [ImportSpecifier.importDefaultSpecifier "foo"] sdkModule

def progFoo : StmtList := .cons fooImport (.cons tryCatchE .nil)

/-- C5 counterexample: a file that already imports the SDK bound to `foo`
and has one instrumentable handler: the handler is instrumented, the file
ends with exactly one SDK import, but that import is NOT bound to
`corona` — refuting "contains exactly one import of the diagnostic module
bound to the name corona". -/
theorem sdkImport_binding_counterexample :
    (processProgram progFoo).2 = true ∧
    countSdkImports (processProgram progFoo).1 = 1 ∧
    StmtList.any bindsCoronaDefault (processProgram progFoo).1 = false :=
  ⟨rfl, rfl, rfl⟩

/-- C8: a file whose text fails to parse (the parser throws, e.g. a
syntax error) is caught by the per-file `try … catch`: the failure is
logged, the file is not written (its content stays unchanged), and the
remaining files of the batch are still processed. -/
theorem parse_failure_logged_and_skipped (msg : String)
    (rest : List (Except String StmtList)) :
    processFile (Except.error msg) = FileResult.errorLogged ∧
    processBatch (Except.error msg :: rest) =
      FileResult.errorLogged :: processBatch rest :=
  ⟨rfl, rfl⟩

theorem toList_instrument : (l : StmtList) →
    (instrumentStmtList l).1.toList = l.toList.map (fun s => (instrumentStmt s).1)
  | .nil => rfl
  | .cons s t => by
      simp [instrumentStmtList, StmtList.toList, toList_instrument t]

theorem length_toList_instrument (l : StmtList) :
    (instrumentStmtList l).1.toList.length = l.toList.length := by
  simp [toList_instrument]

theorem lastImportIndex_none_iff : (l : StmtList) →
    (lastImportIndex l = Option.none ↔ ∀ s ∈ l.toList, isImportDecl s = false)
  | .nil => by simp [lastImportIndex, StmtList.toList]
  | .cons s t => by
      have ih := lastImportIndex_none_iff t
      simp only [lastImportIndex, StmtList.toList, List.mem_cons]
      cases ht : lastImportIndex t with
      | some k =>
          simp only [ht] at ih ⊢
          constructor
          · intro h; cases h
          · intro h
            have : ∀ x ∈ t.toList, isImportDecl x = false := fun x hx => h x (Or.inr hx)
            rw [← ih] at this
            cases this
      | none =>
          simp only [ht] at ih ⊢
          cases hs : isImportDecl s with
          | true =>
              simp only [if_pos rfl]
              constructor
              · intro h; cases h
              · intro h
                have := h s (Or.inl rfl)
                rw [hs] at this
                cases this
          | false =>
              simp only [hs, Bool.false_eq_true, if_false]
              constructor
              · intro _ x hx
                cases hx with
                | inl he => rw [he]; exact hs
                | inr hm => exact ih.mp trivial x hm
              · intro _; exact trivial

theorem lastImportIndex_some_char : (l : StmtList) → (i : Nat) →
    lastImportIndex l = Option.some i →
    (∃ s, l.toList.get? i = some s ∧ isImportDecl s = true) ∧
    (∀ j s', i < j → l.toList.get? j = some s' → isImportDecl s' = false)
  | .nil, i, h => by simp [lastImportIndex] at h
  | .cons s t, i, h => by
      simp only [lastImportIndex] at h
      cases ht : lastImportIndex t with
      | some k =>
          rw [ht] at h
          have hik : i = k + 1 := (Option.some.inj h).symm
          subst hik
          obtain ⟨⟨x, hx1, hx2⟩, hafter⟩ := lastImportIndex_some_char t k ht
          refine ⟨⟨x, ?_, hx2⟩, ?_⟩
          · simpa [StmtList.toList] using hx1
          · intro j s' hj hget
            cases j with
            | zero => omega
            | succ j' =>
                simp only [StmtList.toList, List.get?_cons_succ] at hget
                exact hafter j' s' (by omega) hget
      | none =>
          rw [ht] at h
          cases hs : isImportDecl s with
          | true =>
              rw [hs, if_pos rfl] at h
              have hi0 : i = 0 := (Option.some.inj h).symm
              subst hi0
              refine ⟨⟨s, by simp [StmtList.toList], hs⟩, ?_⟩
              intro j s' hj hget
              cases j with
              | zero => omega
              | succ j' =>
                  simp only [StmtList.toList, List.get?_cons_succ] at hget
                  exact (lastImportIndex_none_iff t).mp ht s' (List.get?_mem hget)
          | false =>
              rw [hs] at h
              simp at h

theorem lastImportIndex_some_of_char : (l : StmtList) → (i : Nat) →
    (∃ s, l.toList.get? i = some s ∧ isImportDecl s = true) →
    (∀ j s', i < j → l.toList.get? j = some s' → isImportDecl s' = false) →
    lastImportIndex l = Option.some i
  | .nil, i, h, _ => by
      obtain ⟨s, hs, _⟩ := h
      simp [StmtList.toList] at hs
  | .cons s t, i, h, hafter => by
      cases i with
      | zero =>
          obtain ⟨x, hx1, hx2⟩ := h
          simp only [StmtList.toList, List.get?_cons_zero, Option.some.injEq] at hx1
          have htnone : lastImportIndex t = Option.none := by
            rw [lastImportIndex_none_iff t]
            intro y hy
            obtain ⟨n, hn⟩ := List.get?_of_mem hy
            exact hafter (n + 1) y (by omega)
              (by simpa [StmtList.toList, List.get?_cons_succ] using hn)
          simp [lastImportIndex, htnone, hx1, hx2]
      | succ i' =>
          obtain ⟨x, hx1, hx2⟩ := h
          simp only [StmtList.toList, List.get?_cons_succ] at hx1
          have ht : lastImportIndex t = Option.some i' :=
            lastImportIndex_some_of_char t i' ⟨x, hx1, hx2⟩
              (fun j s' hj hget => hafter (j + 1) s' (by omega)
                (by simpa [StmtList.toList, List.get?_cons_succ] using hget))
          simp [lastImportIndex, ht]

theorem toList_insertIdx : (n : Nat) → (x : Stmt) → (l : StmtList) →
    n ≤ l.toList.length →
    (StmtList.insertIdx n x l).toList = l.toList.take n ++ x :: l.toList.drop n
  | 0, x, l, _ => by simp [StmtList.insertIdx, StmtList.toList]
  | n + 1, x, .nil, h => by simp [StmtList.toList] at h
  | n + 1, x, .cons s t, h => by
      simp only [StmtList.toList, List.length_cons] at h
      simp [StmtList.insertIdx, StmtList.toList,
        toList_insertIdx n x t (by omega)]

/-- C6: when the file was modified and had no import of the SDK, the
synthesized import lands immediately after the last pre-existing
top-level import declaration — position `i + 1` of the instrumented body,
where `i` is the position of the last import, every later position being
a non-import — or at the very top of the file when there were no imports
at all. -/
theorem importStatement_position (prog out : StmtList)
    (hno : hasCoronaImport prog = false)
    (h : processProgram prog = (out, true)) :
    ((∀ s ∈ prog.toList, isImportDecl s = false) →
      out.toList = importStatement :: (instrumentStmtList prog).1.toList) ∧
    (∀ i, (∃ s, prog.toList.get? i = some s ∧ isImportDecl s = true) →
      (∀ j s', i < j → prog.toList.get? j = some s' → isImportDecl s' = false) →
      out.toList = (instrumentStmtList prog).1.toList.take (i + 1) ++
        importStatement :: (instrumentStmtList prog).1.toList.drop (i + 1)) := by
  have hm : (instrumentStmtList prog).2 = true := by
    have h2 := congrArg Prod.snd h
    simpa [processProgram] using h2
  have hout : out = (processProgram prog).1 := by rw [h]
  constructor
  · intro hall
    have hnone : lastImportIndex prog = Option.none :=
      (lastImportIndex_none_iff prog).mpr hall
    rw [hout]
    simp [processProgram, hm, hno, hnone, StmtList.toList]
  · intro i hat hafter
    have hsome : lastImportIndex prog = Option.some i :=
      lastImportIndex_some_of_char prog i hat hafter
    have hlen : i + 1 ≤ (instrumentStmtList prog).1.toList.length := by
      obtain ⟨s, hs, _⟩ := hat
      obtain ⟨hlt, -⟩ := List.get?_eq_some.mp hs
      rw [length_toList_instrument]
      omega
    rw [hout]
    simp only [processProgram, hm, hno, hsome, Bool.not_false, Bool.and_self, if_pos]
    exact toList_insertIdx (i + 1) importStatement (instrumentStmtList prog).1 hlen

def prog2 : StmtList :=
  .cons (.importDeclaration [] "a")
    (.cons (.importDeclaration [] "b") (.cons tryCatchE .nil))

theorem importStatement_position_witness :
    (processProgram prog2).1.toList =
      (instrumentStmtList prog2).1.toList.take 2 ++
        importStatement :: (instrumentStmtList prog2).1.toList.drop 2 :=
  (importStatement_position prog2 (processProgram prog2).1 rfl rfl).2 1
    ⟨.importDeclaration [] "b", rfl, rfl⟩
    (by
      intro j s' hj hget
      rcases j with _ | _ | _ | j
      · omega
      · omega
      · simp only [prog2, StmtList.toList, tryCatchE] at hget
        rw [← Option.some.inj hget]
        rfl
      · simp [prog2, StmtList.toList] at hget)

mutual

/-- Insert-only refinement on expressions: output equals input except
that statement bodies nested inside may gain insertions per `EmbL`. -/
inductive EmbE : Expr → Expr → Prop where
  | identifier (n : String) : EmbE (.identifier n) (.identifier n)
  | stringLiteral (v : String) : EmbE (.stringLiteral v) (.stringLiteral v)
  | memberExpression {o o' p p' : Expr} (c : Bool) :
      EmbE o o' → EmbE p p' → EmbE (.memberExpression o p c) (.memberExpression o' p' c)
  | callExpression {f f' : Expr} {a a' : ExprList} :
      EmbE f f' → EmbEL a a' → EmbE (.callExpression f a) (.callExpression f' a')
  | logicalExpression (op : String) {l l' r r' : Expr} :
      EmbE l l' → EmbE r r' → EmbE (.logicalExpression op l r) (.logicalExpression op l' r')
  | objectExpression {ps ps' : PropList} :
      EmbPL ps ps' → EmbE (.objectExpression ps) (.objectExpression ps')
  | functionExpression {b b' : StmtList} :
      EmbL b b' → EmbE (.functionExpression b) (.functionExpression b')

/-- Insert-only refinement on argument lists: pointwise, no insertion. -/
inductive EmbEL : ExprList → ExprList → Prop where
  | nil : EmbEL .nil .nil
  | cons {e e' : Expr} {t t' : ExprList} :
      EmbE e e' → EmbEL t t' → EmbEL (.cons e t) (.cons e' t')

/-- Insert-only refinement on object properties: pointwise. -/
inductive EmbPL : PropList → PropList → Prop where
  | nil : EmbPL .nil .nil
  | cons {k k' v v' : Expr} {t t' : PropList} :
      EmbE k k' → EmbE v v' → EmbPL t t' → EmbPL (.cons k v t) (.cons k' v' t')

/-- Insert-only refinement on statements: the output keeps the input's
constructor and every child, recursively refined. -/
inductive EmbS : Stmt → Stmt → Prop where
  | expressionStatement {e e' : Expr} :
      EmbE e e' → EmbS (.expressionStatement e) (.expressionStatement e')
  | importDeclaration (specs : List ImportSpecifier) (src : String) :
      EmbS (.importDeclaration specs src) (.importDeclaration specs src)
  | tryStatement {b b' : StmtList} {h h' : MaybeCatch} {f f' : MaybeStmts} :
      EmbL b b' → EmbMC h h' → EmbMSs f f' →
      EmbS (.tryStatement b h f) (.tryStatement b' h' f')
  | blockStatement {b b' : StmtList} :
      EmbL b b' → EmbS (.blockStatement b) (.blockStatement b')
  | functionDeclaration (n : String) {b b' : StmtList} :
      EmbL b b' → EmbS (.functionDeclaration n b) (.functionDeclaration n b')
  | ifStatement {t t' : Expr} {c c' : Stmt} {a a' : MaybeStmt} :
      EmbE t t' → EmbS c c' → EmbMS a a' →
      EmbS (.ifStatement t c a) (.ifStatement t' c' a')

/-- Insert-only refinement on optional statements. -/
inductive EmbMS : MaybeStmt → MaybeStmt → Prop where
  | none : EmbMS .none .none
  | some {s s' : Stmt} : EmbS s s' → EmbMS (.some s) (.some s')

/-- Insert-only refinement on statement lists: pointwise, same order, no
insertion (insertions happen only at heads of catch bodies and at the
top level). -/
inductive EmbL : StmtList → StmtList → Prop where
  | nil : EmbL .nil .nil
  | cons {s s' : Stmt} {t t' : StmtList} :
      EmbS s s' → EmbL t t' → EmbL (.cons s t) (.cons s' t')

/-- Insert-only refinement on catch clauses: the binding is unchanged and
the body either is refined pointwise or additionally gains one
synthesized `corona.warn` statement at its head. -/
inductive EmbC : CatchClause → CatchClause → Prop where
  | keep {p : Option Pat} {b b' : StmtList} :
      EmbL b b' → EmbC (.mk p b) (.mk p b')
  | insertWarn {p : Option Pat} {b b' : StmtList} (e : String) :
      EmbL b b' → EmbC (.mk p b) (.mk p (.cons (warnStmt e) b'))

/-- Insert-only refinement on optional catch clauses. -/
inductive EmbMC : MaybeCatch → MaybeCatch → Prop where
  | none : EmbMC .none .none
  | some {c c' : CatchClause} : EmbC c c' → EmbMC (.some c) (.some c')

/-- Insert-only refinement on optional finalizers. -/
inductive EmbMSs : MaybeStmts → MaybeStmts → Prop where
  | none : EmbMSs .none .none
  | some {l l' : StmtList} : EmbL l l' → EmbMSs (.some l) (.some l')

end

/-- Insert-only refinement at the file's top level: the output program is
the pointwise-refined input with at most one `importStatement` inserted
at some index. -/
inductive EmbTop : StmtList → StmtList → Prop where
  | noImport {p p' : StmtList} : EmbL p p' → EmbTop p p'
  | oneImport {p p' : StmtList} (n : Nat) :
      EmbL p p' → EmbTop p (StmtList.insertIdx n importStatement p')

mutual

theorem embE_instrument : (e : Expr) → EmbE e (instrumentExpr e).1
  | .identifier n => EmbE.identifier n
  | .stringLiteral v => EmbE.stringLiteral v
  | .memberExpression o p c =>
      EmbE.memberExpression c (embE_instrument o) (embE_instrument p)
  | .callExpression f a =>
      EmbE.callExpression (embE_instrument f) (embEL_instrument a)
  | .logicalExpression op l r =>
      EmbE.logicalExpression op (embE_instrument l) (embE_instrument r)
  | .objectExpression ps => EmbE.objectExpression (embPL_instrument ps)
  | .functionExpression b => EmbE.functionExpression (embL_instrument b)

theorem embEL_instrument : (a : ExprList) → EmbEL a (instrumentExprList a).1
  | .nil => EmbEL.nil
  | .cons e t => EmbEL.cons (embE_instrument e) (embEL_instrument t)

theorem embPL_instrument : (ps : PropList) → EmbPL ps (instrumentPropList ps).1
  | .nil => EmbPL.nil
  | .cons k v t =>
      EmbPL.cons (embE_instrument k) (embE_instrument v) (embPL_instrument t)

theorem embS_instrument : (s : Stmt) → EmbS s (instrumentStmt s).1
  | .expressionStatement e => EmbS.expressionStatement (embE_instrument e)
  | .importDeclaration specs src => EmbS.importDeclaration specs src
  | .tryStatement b h f =>
      EmbS.tryStatement (embL_instrument b) (embMC_instrument h) (embMSs_instrument f)
  | .blockStatement b => EmbS.blockStatement (embL_instrument b)
  | .functionDeclaration n b => EmbS.functionDeclaration n (embL_instrument b)
  | .ifStatement t c a =>
      EmbS.ifStatement (embE_instrument t) (embS_instrument c) (embMS_instrument a)

theorem embMS_instrument : (a : MaybeStmt) → EmbMS a (instrumentMaybeStmt a).1
  | .none => EmbMS.none
  | .some s => EmbMS.some (embS_instrument s)

theorem embL_instrument : (l : StmtList) → EmbL l (instrumentStmtList l).1
  | .nil => EmbL.nil
  | .cons s t => EmbL.cons (embS_instrument s) (embL_instrument t)

theorem embC_instrument : (c : CatchClause) → EmbC c (instrumentCatch c).1
  | .mk Option.none body => EmbC.keep (embL_instrument body)
  | .mk (Option.some (Pat.identifier e)) body => by
      by_cases hl : hasCoronaLog body
      · have : instrumentCatch (.mk (Option.some (Pat.identifier e)) body) =
            (.mk (Option.some (Pat.identifier e)) (instrumentStmtList body).1,
             (instrumentStmtList body).2) := by
          simp [instrumentCatch, hl]
        rw [this]
        exact EmbC.keep (embL_instrument body)
      · have : instrumentCatch (.mk (Option.some (Pat.identifier e)) body) =
            (.mk (Option.some (Pat.identifier e))
              (.cons (warnStmt e) (instrumentStmtList body).1), true) := by
          simp [instrumentCatch, hl]
        rw [this]
        exact EmbC.insertWarn e (embL_instrument body)
  | .mk (Option.some Pat.objectPattern) body => EmbC.keep (embL_instrument body)
  | .mk (Option.some Pat.arrayPattern) body => EmbC.keep (embL_instrument body)

theorem embMC_instrument : (h : MaybeCatch) → EmbMC h (instrumentMaybeCatch h).1
  | .none => EmbMC.none
  | .some c => EmbMC.some (embC_instrument c)

theorem embMSs_instrument : (f : MaybeStmts) → EmbMSs f (instrumentMaybeStmts f).1
  | .none => EmbMSs.none
  | .some l => EmbMSs.some (embL_instrument l)

end

/-- C10: the per-file transform is insert-only.  The output tree refines
the input tree: every existing node is kept, in the same relative order,
with the only additions being synthesized `corona.warn` statements at the
heads of handler bodies and at most one import declaration at the top
level. -/
theorem processProgram_insert_only (prog : StmtList) :
    EmbTop prog (processProgram prog).1 := by
  unfold processProgram
  by_cases hc : (instrumentStmtList prog).2 && !hasCoronaImport prog
  · simp only [hc, if_pos]
    cases hli : lastImportIndex prog with
    | none => exact EmbTop.oneImport 0 (embL_instrument prog)
    | some i => exact EmbTop.oneImport (i + 1) (embL_instrument prog)
  · simp only [hc, Bool.false_eq_true, if_false]
    exact EmbTop.noImport (embL_instrument prog)

end Coronainit
